import Mathlib

/-
  Verification of the JACK MIDI backend (src/rtmidi17/detail/jack.hpp).

  The development shallowly embeds the backend's data model and operations:
  pure state-passing functions mirror the C++ member functions, the JACK
  server API is modelled abstractly per its documented behaviour, and the
  repository headers that are referenced but not part of the source under
  verification (semaphore, message, input-queue types) are modelled from
  the design specification.
-/

namespace RtMidiJack

/-- Ringbuffer capacity constant `jack_data::ringbuffer_size` (16384). -/
def ringbuffer_size : Nat := 16384

/-- Modelled from the spec: the single-producer/single-consumer byte
ringbuffer primitive supplied by the server library (`jack_ringbuffer_t`,
not part of this repository). Fixed capacity; non-blocking truncating
writes; reads take at most the readable byte count. Bytes are `Nat`. -/
structure Ringbuffer where
  data : List Nat
  cap : Nat
deriving DecidableEq

/-- Modelled from the spec: `jack_ringbuffer_write_space`. -/
def rbWriteSpace (rb : Ringbuffer) : Nat := rb.cap - rb.data.length

/-- Modelled from the spec: `jack_ringbuffer_read_space`. -/
def rbReadSpace (rb : Ringbuffer) : Nat := rb.data.length

/-- Modelled from the spec: `jack_ringbuffer_write`; writes as many of the
given bytes as fit, silently truncating on overflow. -/
def rbWrite (rb : Ringbuffer) (bytes : List Nat) : Ringbuffer :=
  { rb with data := rb.data ++ bytes.take (rbWriteSpace rb) }

/-- Modelled from the spec: `jack_ringbuffer_read`; reads at most `n`
bytes, returning them and the remaining buffer. -/
def rbRead (rb : Ringbuffer) (n : Nat) : List Nat × Ringbuffer :=
  (rb.data.take n, { rb with data := rb.data.drop n })

/-- The fixed-width (4-byte, `sizeof(int)`) length record written by
`send_message` into the size ringbuffer, as its byte serialization. -/
def encode4 (n : Nat) : List Nat :=
  [n % 256, n / 256 % 256, n / 65536 % 256, n / 16777216 % 256]

/-- Deserialization of a 4-byte length record, as performed by the read of
`sizeof(int)` bytes in `jackProcessOut`. -/
def decode4 (l : List Nat) : Nat :=
  match l with
  | [a, b, c, d] => a + 256 * b + 65536 * c + 16777216 * d
  | _ => 0

/-- The output ringbuffer pair `jack_data::buffSize` / `jack_data::buffMessage`. -/
structure OutBuffers where
  buffSize : Ringbuffer
  buffMessage : Ringbuffer
deriving DecidableEq

/-- The ringbuffer pair as created by `midi_out_jack::connect`
(`jack_ringbuffer_create(jack_data::ringbuffer_size)` twice). -/
def initOutBuffers : OutBuffers :=
  ⟨⟨[], ringbuffer_size⟩, ⟨[], ringbuffer_size⟩⟩

/-- `midi_out_jack::send_message`: write the full payload to the payload
ringbuffer, then write the fixed-width length record to the size
ringbuffer (in that order in the source). -/
def send_message (b : OutBuffers) (msg : List Nat) : OutBuffers :=
  let bm := rbWrite b.buffMessage msg
  let bs := rbWrite b.buffSize (encode4 msg.length)
  ⟨bs, bm⟩

/-- The drain loop of `midi_out_jack::jackProcessOut`: while the size
ringbuffer has readable bytes, read one 4-byte length record, reserve that
many bytes in the port buffer (the accumulator models the events written
there, in order), and read exactly that many payload bytes. -/
def drainLoop (b : OutBuffers) (acc : List (List Nat)) : List (List Nat) × OutBuffers :=
  if h : 0 < rbReadSpace b.buffSize then
    let r1 := rbRead b.buffSize 4
    let space := decode4 r1.1
    let r2 := rbRead b.buffMessage space
    drainLoop ⟨r1.2, r2.2⟩ (acc ++ [r2.1])
  else (acc, b)
termination_by rbReadSpace b.buffSize
decreasing_by
  simp only [rbRead, rbReadSpace, List.length_drop] at *
  omega

theorem encode4_length (n : Nat) : (encode4 n).length = 4 := rfl

theorem decode4_encode4 (n : Nat) (h : n < 4294967296) : decode4 (encode4 n) = n := by
  simp only [encode4, decode4]
  omega

theorem rbWrite_full (rb : Ringbuffer) (bytes : List Nat)
    (h : rb.data.length + bytes.length ≤ rb.cap) :
    (rbWrite rb bytes).data = rb.data ++ bytes ∧ (rbWrite rb bytes).cap = rb.cap := by
  constructor
  · simp only [rbWrite, rbWriteSpace]
    rw [List.take_of_length_le (by omega)]
  · rfl

theorem foldl_send_message (msgs : List (List Nat)) (b : OutBuffers)
    (hc1 : b.buffMessage.cap = ringbuffer_size)
    (hc2 : b.buffSize.cap = ringbuffer_size)
    (h1 : b.buffMessage.data.length + (msgs.map List.length).sum ≤ ringbuffer_size)
    (h2 : b.buffSize.data.length + 4 * msgs.length ≤ ringbuffer_size) :
    (msgs.foldl send_message b).buffMessage.data = b.buffMessage.data ++ msgs.flatten ∧
    (msgs.foldl send_message b).buffSize.data
      = b.buffSize.data ++ (msgs.map (fun m => encode4 m.length)).flatten ∧
    (msgs.foldl send_message b).buffMessage.cap = ringbuffer_size ∧
    (msgs.foldl send_message b).buffSize.cap = ringbuffer_size := by
  induction msgs generalizing b with
  | nil => simpa using ⟨hc1, hc2⟩
  | cons m rest ih =>
    simp only [List.map_cons, List.sum_cons, List.length_cons] at h1 h2
    obtain ⟨em, ecm⟩ := rbWrite_full b.buffMessage m (by omega)
    obtain ⟨es, ecs⟩ := rbWrite_full b.buffSize (encode4 m.length)
      (by rw [encode4_length]; omega)
    have hstep : send_message b m
        = ⟨rbWrite b.buffSize (encode4 m.length), rbWrite b.buffMessage m⟩ := rfl
    simp only [List.foldl_cons, hstep]
    obtain ⟨i1, i2, i3, i4⟩ := ih ⟨rbWrite b.buffSize (encode4 m.length), rbWrite b.buffMessage m⟩
      (by simpa using ecm.trans hc1)
      (by simpa using ecs.trans hc2)
      (by simp only [em, List.length_append]; omega)
      (by simp only [es, List.length_append, encode4_length]; omega)
    refine ⟨?_, ?_, i3, i4⟩
    · simp only [i1]
      simp [em]
    · simp only [i2]
      simp [es]

theorem drainLoop_reconstructs (msgs : List (List Nat)) (acc : List (List Nat))
    (b : OutBuffers)
    (hs : b.buffSize.data = (msgs.map (fun m => encode4 m.length)).flatten)
    (hm : b.buffMessage.data = msgs.flatten)
    (hlt : ∀ m ∈ msgs, m.length < 4294967296) :
    (drainLoop b acc).1 = acc ++ msgs := by
  induction msgs generalizing acc b with
  | nil =>
    rw [drainLoop]
    simp [rbReadSpace, hs]
  | cons m rest ih =>
    rw [drainLoop]
    have hpos : 0 < rbReadSpace b.buffSize := by
      simp [rbReadSpace, hs, encode4_length]
    rw [dif_pos hpos]
    have htake4 : b.buffSize.data.take 4 = encode4 m.length := by
      rw [hs]
      simp only [List.map_cons, List.flatten_cons]
      rw [List.take_left' (encode4_length m.length)]
    have hdrop4 : b.buffSize.data.drop 4
        = (rest.map (fun x => encode4 x.length)).flatten := by
      rw [hs]
      simp only [List.map_cons, List.flatten_cons]
      rw [List.drop_left' (encode4_length m.length)]
    have hdec : decode4 (b.buffSize.data.take 4) = m.length := by
      rw [htake4, decode4_encode4 _ (hlt m (by simp))]
    have htakem : b.buffMessage.data.take (decode4 (b.buffSize.data.take 4)) = m := by
      rw [hdec, hm]
      simp only [List.flatten_cons]
      rw [List.take_left' rfl]
    have hdropm : b.buffMessage.data.drop (decode4 (b.buffSize.data.take 4))
        = rest.flatten := by
      rw [hdec, hm]
      simp only [List.flatten_cons]
      rw [List.drop_left' rfl]
    simp only [rbRead]
    rw [htakem]
    have := ih (acc ++ [m]) ⟨⟨b.buffSize.data.drop 4, b.buffSize.cap⟩,
      ⟨b.buffMessage.data.drop (decode4 (b.buffSize.data.take 4)), b.buffMessage.cap⟩⟩
      (by simpa using hdrop4) (by simpa using hdropm)
      (fun x hx => hlt x (by simp [hx]))
    simpa using this

/-- Warnings emitted through `midi_api::warning`. -/
inductive Warn
  | serverNotRunning
  | noPortsAvailable
  | invalidPortNumber (i : Nat)
  | notImplemented
deriving DecidableEq

/-- Errors raised through `midi_api::error<driver_error>`. -/
inductive Err
  | driverError
deriving DecidableEq

/-- State of a `midi_out_jack` instance: the fields of its `jack_data`
member that the backend reads or writes (client handle, port handle, the
ringbuffer pair, the two binary shutdown semaphores — the semaphore type
is modelled from the spec since `detail/semaphore.hpp` is not part of the
source under verification: `notify` sets a binary flag, `try_wait` returns
`false` exactly when it consumed a pending signal, `wait_for` consumes the
signal if present and otherwise times out), plus ghost instrumentation:
`rbPairsCreated` / `rbPairsFreed` count `jack_ringbuffer_create` pair /
`jack_ringbuffer_free` pair events, `registrations` counts successful
`jack_port_register` calls, and `emitted` records the events written into
the port's outbound buffer by the process callback. -/
structure OutState where
  client : Bool
  port : Bool
  buffers : Option OutBuffers
  sem_needpost : Bool
  sem_cleanup : Bool
  rbPairsCreated : Nat
  rbPairsFreed : Nat
  registrations : Nat
  emitted : List (List Nat)
deriving DecidableEq

/-- Modelled from the spec: `jack_get_ports` returns the server's peer
port list (the oracle), or null when there is no client / the server is
unreachable. -/
def jackGetPorts (client : Bool) (ports : Option (List String)) : Option (List String) :=
  if client then ports else none

/-- `midi_out_jack::connect`: no-op when a client exists; otherwise create
the two ringbuffers, then open the client (`JackNoStartServer`); on
failure warn and stay unconnected; on success register the process
callback and activate. `serverRunning` is the oracle for whether
`jack_client_open` succeeds. -/
def connectOut (serverRunning : Bool) (st : OutState) : OutState × List Warn :=
  if st.client then (st, [])
  else
    let st1 := { st with buffers := some initOutBuffers,
                         rbPairsCreated := st.rbPairsCreated + 1 }
    if serverRunning then ({ st1 with client := true }, [])
    else (st1, [Warn.serverNotRunning])

/-- `midi_out_jack::get_port_count`. -/
def getPortCountOut (serverRunning : Bool) (ports : Option (List String))
    (st : OutState) : OutState × Nat × List Warn × List Err :=
  let c := connectOut serverRunning st
  if c.1.client = false then (c.1, 0, c.2, [])
  else
    match jackGetPorts c.1.client ports with
    | none => (c.1, 0, c.2, [])
    | some l => (c.1, l.length, c.2, [])

/-- Raw read of the null-terminated name array at `ports[i]`: below the
count it yields the i-th name; at exactly the count it reads the NULL
terminator; past the terminator the read is out of bounds — undefined
behaviour in the source, modelled as the distinguished outcome `none`. -/
def portsArrayRead (l : List String) (i : Nat) : Option (Option String) :=
  if h : i < l.length then some (some (l.get ⟨i, h⟩))
  else if i = l.length then some none
  else none

/-- `midi_out_jack::get_port_name`: a null ports array warns and returns
the empty string for every index; with an array present the source reads
`ports[portNumber]` raw, so the NULL terminator at the count warns and
returns empty while an index past the terminator is an out-of-bounds
read — undefined behaviour, the operation's value is `none`. -/
def getPortNameOut (serverRunning : Bool) (ports : Option (List String)) (i : Nat)
    (st : OutState) : OutState × Option String × List Warn × List Err :=
  let c := connectOut serverRunning st
  match jackGetPorts c.1.client ports with
  | none => (c.1, some "", c.2 ++ [Warn.noPortsAvailable], [])
  | some l =>
    match portsArrayRead l i with
    | none => (c.1, none, c.2, [])
    | some none => (c.1, some "", c.2 ++ [Warn.invalidPortNumber i], [])
    | some (some s) => (c.1, some s, c.2, [])

/-- Port registration step shared by `open_port` / `open_virtual_port`:
`jack_port_register` succeeds only with a live client and when the server
accepts the registration (`regOk` oracle). -/
def registerOut (regOk : Bool) (st : OutState) : OutState :=
  if st.port then st
  else if st.client && regOk then
    { st with port := true, registrations := st.registrations + 1 }
  else st

/-- `midi_out_jack::open_port`: connect, register if no port, raise a
driver error when the port is still null, else look up the peer name and
`jack_connect` to it. -/
def openPortOut (serverRunning regOk : Bool) (ports : Option (List String)) (i : Nat)
    (st : OutState) : OutState × List Warn × List Err :=
  let c := connectOut serverRunning st
  let st2 := registerOut regOk c.1
  if st2.port = false then (st2, c.2, [Err.driverError])
  else
    let g := getPortNameOut serverRunning ports i st2
    (g.1, c.2 ++ g.2.2.1, [])

/-- `midi_out_jack::open_virtual_port`. -/
def openVirtualPortOut (serverRunning regOk : Bool) (st : OutState) :
    OutState × List Warn × List Err :=
  let c := connectOut serverRunning st
  let st2 := registerOut regOk c.1
  if st2.port = false then (st2, c.2, [Err.driverError])
  else (st2, c.2, [])

/-- `midi_out_jack::jackProcessOut`: return if no port; otherwise drain
the ringbuffer pair into the port buffer; then the shutdown handshake:
`if (!sem_needpost.try_wait()) sem_cleanup.notify()` — the try-wait
consumes a pending request and, exactly then, signals the ack. -/
def jackProcessOutStep (st : OutState) : OutState :=
  if st.port = false then st
  else
    let st1 :=
      match st.buffers with
      | none => st
      | some b =>
        let r := drainLoop b []
        { st with buffers := some r.2, emitted := st.emitted ++ r.1 }
    if st1.sem_needpost then { st1 with sem_needpost := false, sem_cleanup := true }
    else st1

/-- Process-callback invocations repeated `k` times (the real-time thread
runs on its own schedule; `k` is the number of invocations that happen
while the user thread is waiting). -/
def runCallbacksOut : Nat → OutState → OutState
  | 0, st => st
  | k + 1, st => runCallbacksOut k (jackProcessOutStep st)

/-- `midi_out_jack::close_port`: return if no port; otherwise notify the
shutdown-request semaphore, wait on the shutdown-ack semaphore with a 1 s
timeout (`k` callback invocations happen during the wait; the wait
consumes the ack if one was signalled, otherwise the timeout elapses),
then unregister the port. -/
def closePortOut (k : Nat) (st : OutState) : OutState × List Warn × List Err :=
  if st.port = false then (st, [], [])
  else
    let s1 := { st with sem_needpost := true }
    let s2 := runCallbacksOut k s1
    let s3 := if s2.sem_cleanup then { s2 with sem_cleanup := false } else s2
    ({ s3 with port := false }, [], [])

/-- `midi_out_jack::send_message` acting on the whole instance state. -/
def sendMessageOut (msg : List Nat) (st : OutState) : OutState :=
  match st.buffers with
  | none => st
  | some b => { st with buffers := some (send_message b msg) }

/-- Modelled from the spec: the server's port rename primitive
(`jack_port_set_name`); passing the null port handle is undefined
behaviour, modelled as `none`. -/
def jackPortSetName (port : Bool) : Option Unit :=
  if port then some () else none

/-- `midi_out_jack::set_port_name`: passes `data.port` directly to the
rename primitive, with no null check and no warning. -/
def setPortNameOut (st : OutState) : OutState × Option Unit × List Warn × List Err :=
  (st, jackPortSetName st.port, [], [])

/-- `midi_out_jack::set_client_name`: warn, no-op. -/
def setClientNameOut (st : OutState) : OutState × List Warn × List Err :=
  (st, [Warn.notImplemented], [])

/-- The `midi_out_jack` constructor: zero-initialized `jack_data`, then
`connect()`. -/
def mkOutState (serverRunning : Bool) : OutState × List Warn :=
  connectOut serverRunning
    { client := false, port := false, buffers := none, sem_needpost := false,
      sem_cleanup := false, rbPairsCreated := 0, rbPairsFreed := 0,
      registrations := 0, emitted := [] }

/-- The `midi_out_jack` destructor: `close_port()`, free both ringbuffers,
close the client if present. -/
def dtorOut (k : Nat) (st : OutState) : OutState :=
  let r := closePortOut k st
  { r.1 with buffers := none, rbPairsFreed := r.1.rbPairsFreed + 1, client := false }

/-- One public operation on a `midi_out_jack` instance, with the external
oracles it consumes. `processCallback` lets the real-time thread run
between public calls. -/
inductive OutOp
  | openPort (serverRunning regOk : Bool) (ports : Option (List String)) (i : Nat)
  | openVirtualPort (serverRunning regOk : Bool)
  | closePort (k : Nat)
  | sendMessage (msg : List Nat)
  | getPortCount (serverRunning : Bool) (ports : Option (List String))
  | getPortName (serverRunning : Bool) (ports : Option (List String)) (i : Nat)
  | setPortName
  | setClientName
  | processCallback

/-- State transition of one public operation. -/
def stepOut : OutOp → OutState → OutState
  | .openPort sr rk p i, st => (openPortOut sr rk p i st).1
  | .openVirtualPort sr rk, st => (openVirtualPortOut sr rk st).1
  | .closePort k, st => (closePortOut k st).1
  | .sendMessage m, st => sendMessageOut m st
  | .getPortCount sr p, st => (getPortCountOut sr p st).1
  | .getPortName sr p i, st => (getPortNameOut sr p i st).1
  | .setPortName, st => (setPortNameOut st).1
  | .setClientName, st => (setClientNameOut st).1
  | .processCallback, st => jackProcessOutStep st

/-- A sequence of public operations. -/
def runOut (ops : List OutOp) (st : OutState) : OutState :=
  ops.foldl (fun s op => stepOut op s) st

/-- State of a `midi_in_jack` instance relevant to port lifecycle:
client handle, port handle, plus the ghost `registrations` counter for
successful `jack_port_register` calls. -/
structure InState where
  client : Bool
  port : Bool
  registrations : Nat
deriving DecidableEq

/-- `midi_in_jack::connect` (no ringbuffers on the input side). -/
def connectIn (serverRunning : Bool) (st : InState) : InState × List Warn :=
  if st.client then (st, [])
  else if serverRunning then ({ st with client := true }, [])
  else (st, [Warn.serverNotRunning])

/-- `midi_in_jack::get_port_count`. -/
def getPortCountIn (serverRunning : Bool) (ports : Option (List String))
    (st : InState) : InState × Nat × List Warn × List Err :=
  let c := connectIn serverRunning st
  if c.1.client = false then (c.1, 0, c.2, [])
  else
    match jackGetPorts c.1.client ports with
    | none => (c.1, 0, c.2, [])
    | some l => (c.1, l.length, c.2, [])

/-- `midi_in_jack::get_port_name`: same raw `ports[portNumber]` read as
the output side — warn-and-empty for a null array or the NULL terminator
at the count, undefined behaviour (`none`) past the terminator. -/
def getPortNameIn (serverRunning : Bool) (ports : Option (List String)) (i : Nat)
    (st : InState) : InState × Option String × List Warn × List Err :=
  let c := connectIn serverRunning st
  match jackGetPorts c.1.client ports with
  | none => (c.1, some "", c.2 ++ [Warn.noPortsAvailable], [])
  | some l =>
    match portsArrayRead l i with
    | none => (c.1, none, c.2, [])
    | some none => (c.1, some "", c.2 ++ [Warn.invalidPortNumber i], [])
    | some (some s) => (c.1, some s, c.2, [])

/-- Port registration step of the input opens. -/
def registerIn (regOk : Bool) (st : InState) : InState :=
  if st.port then st
  else if st.client && regOk then
    { st with port := true, registrations := st.registrations + 1 }
  else st

/-- `midi_in_jack::open_port`. -/
def openPortIn (serverRunning regOk : Bool) (ports : Option (List String)) (i : Nat)
    (st : InState) : InState × List Warn × List Err :=
  let c := connectIn serverRunning st
  let st2 := registerIn regOk c.1
  if st2.port = false then (st2, c.2, [Err.driverError])
  else
    let g := getPortNameIn serverRunning ports i st2
    (g.1, c.2 ++ g.2.2.1, [])

/-- `midi_in_jack::open_virtual_port`. -/
def openVirtualPortIn (serverRunning regOk : Bool) (st : InState) :
    InState × List Warn × List Err :=
  let c := connectIn serverRunning st
  let st2 := registerIn regOk c.1
  if st2.port = false then (st2, c.2, [Err.driverError])
  else (st2, c.2, [])

/-- `midi_in_jack::close_port`: return if no port, else unregister. -/
def closePortIn (st : InState) : InState × List Warn × List Err :=
  if st.port = false then (st, [], [])
  else ({ st with port := false }, [], [])

/-- `midi_in_jack::set_port_name`: passes `data.port` directly to the
rename primitive, with no null check and no warning. -/
def setPortNameIn (st : InState) : InState × Option Unit × List Warn × List Err :=
  (st, jackPortSetName st.port, [], [])

/-- One `open_port` / `open_virtual_port` call with its oracles (used for
open-only sequences). -/
inductive OpenOp
  | portOp (serverRunning regOk : Bool) (ports : Option (List String)) (i : Nat)
  | virtualOp (serverRunning regOk : Bool)

/-- Open-call transition on the input backend. -/
def stepOpenIn : OpenOp → InState → InState
  | .portOp sr rk p i, st => (openPortIn sr rk p i st).1
  | .virtualOp sr rk, st => (openVirtualPortIn sr rk st).1

/-- Open-call transition on the output backend. -/
def stepOpenOut : OpenOp → OutState → OutState
  | .portOp sr rk p i, st => (openPortOut sr rk p i st).1
  | .virtualOp sr rk, st => (openVirtualPortOut sr rk st).1

/-- A sequence of open calls on the input backend. -/
def runOpenIn (ops : List OpenOp) (st : InState) : InState :=
  ops.foldl (fun s o => stepOpenIn o s) st

/-- A sequence of open calls on the output backend. -/
def runOpenOut (ops : List OpenOp) (st : OutState) : OutState :=
  ops.foldl (fun s o => stepOpenOut o s) st

/-- Modelled from the spec: a MIDI message value as constructed in the
input callback; the message type (`rtmidi17.hpp`, not part of the source
under verification) default-initializes its timestamp to zero. The
`double` timestamp is modelled as an exact rational. -/
structure InMessage where
  bytes : List Nat
  timestamp : Rat
deriving DecidableEq

/-- Modelled from the spec: the application input binding
(`midi_in_api::in_data`, not part of the source under verification): a
bounded message queue whose push reports success or overflow, an optional
user callback, a first-message flag and a continue-sysex flag. -/
structure InRtData where
  firstMessage : Bool
  continueSysex : Bool
  hasCallback : Bool
  queue : List InMessage
  queueLimit : Nat
deriving DecidableEq

/-- State that `midi_in_jack::jackProcessIn` reads and writes: the
application input binding and `jack_data::lastTime`. -/
structure InCbState where
  rt : InRtData
  lastTime : Nat
deriving DecidableEq

/-- Fate of one received event in `jackProcessIn`. -/
inductive Delivery
  | discarded (m : InMessage)
  | toCallback (m : InMessage)
  | queued (m : InMessage)
  | droppedQueueFull (m : InMessage)
deriving DecidableEq

/-- The message an event's `Delivery` carries. -/
def Delivery.msg : Delivery → InMessage
  | .discarded m => m
  | .toCallback m => m
  | .queued m => m
  | .droppedQueueFull m => m

/-- Unsigned 64-bit subtraction, as performed on `jack_time_t` values by
`time - jData.lastTime`. -/
def usub64 (a b : Nat) : Nat :=
  (a % 18446744073709551616 + 18446744073709551616 - b % 18446744073709551616)
    % 18446744073709551616

/-- The stderr notice printed when the application queue rejects a push. -/
def queueFullNotice : String := "MidiInJack: message queue limit reached!!"

/-- One iteration of the event loop in `midi_in_jack::jackProcessIn`:
construct the message from the event bytes (timestamp defaults to 0),
read `t_now`; if the first-message flag is set clear it and leave the
timestamp, else set the timestamp to `(t_now - last) * 1e-6`; update
`last := t_now` unconditionally; then dispatch: discard under
continue-sysex, else deliver to the user callback when installed, else
push to the queue, dropping with a stderr notice on overflow. -/
def processEvent (st : InCbState) (evBytes : List Nat) (tNow : Nat) :
    InCbState × Delivery × List String :=
  let m0 : InMessage := { bytes := evBytes, timestamp := 0 }
  let rt1 := if st.rt.firstMessage then { st.rt with firstMessage := false } else st.rt
  let m1 := if st.rt.firstMessage then m0
    else { m0 with timestamp := (usub64 tNow st.lastTime : Rat) / 1000000 }
  let st1 : InCbState := { rt := rt1, lastTime := tNow }
  if st1.rt.continueSysex then (st1, .discarded m1, [])
  else if st1.rt.hasCallback then (st1, .toCallback m1, [])
  else if st1.rt.queue.length < st1.rt.queueLimit then
    ({ st1 with rt := { st1.rt with queue := st1.rt.queue ++ [m1] } }, .queued m1, [])
  else (st1, .droppedQueueFull m1, [queueFullNotice])

/-- The event loop of `jackProcessIn` over the events of one period, each
paired with the `jack_get_time()` value read while handling it. -/
def jackProcessInAux (st : InCbState) :
    List (List Nat × Nat) → InCbState × List Delivery × List String
  | [] => (st, [], [])
  | ev :: rest =>
    let r1 := processEvent st ev.1 ev.2
    let r2 := jackProcessInAux r1.1 rest
    (r2.1, r1.2.1 :: r2.2.1, r1.2.2 ++ r2.2.2)

/-- `midi_in_jack::jackProcessIn`: run the event loop and return 0. -/
def jackProcessIn (st : InCbState) (events : List (List Nat × Nat)) :
    (InCbState × List Delivery × List String) × Int :=
  (jackProcessInAux st events, 0)

/-- The messages actually delivered to the application (via user callback
or queue push) out of a list of event fates. -/
def deliveredOf (ds : List Delivery) : List InMessage :=
  ds.foldr (fun d acc =>
    match d with
    | .toCallback m => m :: acc
    | .queued m => m :: acc
    | _ => acc) []

/-- C1: for any sequence of `send_message` calls with payloads P1..Pn whose
total bytes plus per-message 4-byte length records fit within the
ringbuffer capacity (16384 bytes each), the real-time output callback
(`jackProcessOut`) reconstructs exactly P1..Pn, in order, into the port's
outbound buffer: the producer writes payload before length record, and the
consumer reads one length record then exactly that many payload bytes per
iteration. -/
theorem out_framing_reconstructs (msgs : List (List Nat)) (st : OutState)
    (hp : st.port = true)
    (hb : st.buffers = some (msgs.foldl send_message initOutBuffers))
    (hfit : (msgs.map List.length).sum + 4 * msgs.length ≤ ringbuffer_size) :
    (jackProcessOutStep st).emitted = st.emitted ++ msgs := by
  have hrs : ringbuffer_size = 16384 := rfl
  have hm : ∀ m ∈ msgs, m.length < 4294967296 := by
    intro m hmem
    have h1 : m.length ≤ (msgs.map List.length).sum :=
      List.single_le_sum (fun x _ => Nat.zero_le x) _
        (List.mem_map_of_mem List.length hmem)
    omega
  obtain ⟨e1, e2, e3, e4⟩ := foldl_send_message msgs initOutBuffers rfl rfl
    (by
      have hd : initOutBuffers.buffMessage.data = [] := rfl
      rw [hd]
      simp only [List.length_nil]
      omega)
    (by
      have hd : initOutBuffers.buffSize.data = [] := rfl
      rw [hd]
      simp only [List.length_nil]
      omega)
  have hd := drainLoop_reconstructs msgs [] (msgs.foldl send_message initOutBuffers)
    (by rw [e2]; rfl) (by rw [e1]; rfl) hm
  rw [List.nil_append] at hd
  unfold jackProcessOutStep
  rw [hp, hb]
  simp only [Bool.true_eq_false, if_false]
  split <;> simp [hd]

/-- Witness for C1 at the concrete payload sequence
`[[144, 60, 127], [176, 7, 64]]`. -/
theorem out_framing_reconstructs_witness :
    (([[144, 60, 127], [176, 7, 64]].map List.length).sum
        + 4 * [[144, 60, 127], [176, 7, 64]].length ≤ ringbuffer_size) ∧
    (jackProcessOutStep
      { client := true, port := true,
        buffers := some ([[144, 60, 127], [176, 7, 64]].foldl send_message initOutBuffers),
        sem_needpost := false, sem_cleanup := false, rbPairsCreated := 1,
        rbPairsFreed := 0, registrations := 1, emitted := [] }).emitted
      = [] ++ [[144, 60, 127], [176, 7, 64]] :=
  ⟨by decide, out_framing_reconstructs [[144, 60, 127], [176, 7, 64]] _ rfl rfl (by decide)⟩

theorem connectOut_of_client (sr : Bool) (s : OutState) (h : s.client = true) :
    connectOut sr s = (s, []) := by
  simp [connectOut, h]

theorem connectOut_ghost (sr : Bool) (s : OutState) :
    (connectOut sr s).1.rbPairsFreed = s.rbPairsFreed ∧
    (connectOut sr s).1.port = s.port ∧
    (connectOut sr s).1.registrations = s.registrations := by
  unfold connectOut
  split
  · exact ⟨rfl, rfl, rfl⟩
  · split
    · exact ⟨rfl, rfl, rfl⟩
    · exact ⟨rfl, rfl, rfl⟩

theorem registerOut_ghost (rk : Bool) (s : OutState) :
    (registerOut rk s).client = s.client ∧
    (registerOut rk s).rbPairsCreated = s.rbPairsCreated ∧
    (registerOut rk s).rbPairsFreed = s.rbPairsFreed ∧
    (registerOut rk s).buffers = s.buffers := by
  unfold registerOut
  split
  · exact ⟨rfl, rfl, rfl, rfl⟩
  · split
    · exact ⟨rfl, rfl, rfl, rfl⟩
    · exact ⟨rfl, rfl, rfl, rfl⟩

theorem getPortNameOut_state (sr : Bool) (p : Option (List String)) (i : Nat)
    (s : OutState) : (getPortNameOut sr p i s).1 = (connectOut sr s).1 := by
  unfold getPortNameOut
  cases h : jackGetPorts (connectOut sr s).1.client p with
  | none => simp [h]
  | some l =>
    cases h2 : portsArrayRead l i with
    | none => simp [h, h2]
    | some o => cases o <;> simp [h, h2]

theorem getPortCountOut_state (sr : Bool) (p : Option (List String))
    (s : OutState) : (getPortCountOut sr p s).1 = (connectOut sr s).1 := by
  unfold getPortCountOut
  cases hc : (connectOut sr s).1.client with
  | false => simp [hc]
  | true =>
    cases h : jackGetPorts true p with
    | none => simp [hc, h]
    | some l => simp [hc, h]

theorem jackProcessOutStep_ghost (s : OutState) :
    (jackProcessOutStep s).client = s.client ∧
    (jackProcessOutStep s).rbPairsCreated = s.rbPairsCreated ∧
    (jackProcessOutStep s).rbPairsFreed = s.rbPairsFreed ∧
    (jackProcessOutStep s).port = s.port ∧
    (jackProcessOutStep s).registrations = s.registrations := by
  unfold jackProcessOutStep
  split
  · exact ⟨rfl, rfl, rfl, rfl, rfl⟩
  · cases hb : s.buffers <;> simp only [hb] <;> split <;>
      exact ⟨rfl, rfl, rfl, rfl, rfl⟩

theorem runCallbacksOut_ghost (k : Nat) (s : OutState) :
    (runCallbacksOut k s).client = s.client ∧
    (runCallbacksOut k s).rbPairsCreated = s.rbPairsCreated ∧
    (runCallbacksOut k s).rbPairsFreed = s.rbPairsFreed ∧
    (runCallbacksOut k s).port = s.port ∧
    (runCallbacksOut k s).registrations = s.registrations := by
  induction k generalizing s with
  | zero => exact ⟨rfl, rfl, rfl, rfl, rfl⟩
  | succ k ih =>
    obtain ⟨a1, a2, a3, a4, a5⟩ := jackProcessOutStep_ghost s
    obtain ⟨b1, b2, b3, b4, b5⟩ := ih (jackProcessOutStep s)
    exact ⟨b1.trans a1, b2.trans a2, b3.trans a3, b4.trans a4, b5.trans a5⟩

theorem openPortOut_state (sr rk : Bool) (p : Option (List String)) (i : Nat)
    (st : OutState) :
    (openPortOut sr rk p i st).1
      = (if (registerOut rk (connectOut sr st).1).port = false
         then registerOut rk (connectOut sr st).1
         else (connectOut sr (registerOut rk (connectOut sr st).1)).1) := by
  simp only [openPortOut]
  split
  · rfl
  · exact getPortNameOut_state sr p i _

theorem openVirtualPortOut_state (sr rk : Bool) (st : OutState) :
    (openVirtualPortOut sr rk st).1 = registerOut rk (connectOut sr st).1 := by
  simp only [openVirtualPortOut]
  split <;> rfl

theorem openPortOut_state_of_client (sr rk : Bool) (p : Option (List String)) (i : Nat)
    (st : OutState) (h : st.client = true) :
    (openPortOut sr rk p i st).1 = registerOut rk st := by
  have hc2 : (registerOut rk st).client = true := (registerOut_ghost rk st).1.trans h
  rw [openPortOut_state]
  simp [connectOut_of_client sr st h, connectOut_of_client sr (registerOut rk st) hc2]

theorem closePortOut_ghost (k : Nat) (st : OutState) :
    (closePortOut k st).1.client = st.client ∧
    (closePortOut k st).1.rbPairsCreated = st.rbPairsCreated ∧
    (closePortOut k st).1.rbPairsFreed = st.rbPairsFreed ∧
    (closePortOut k st).1.registrations = st.registrations := by
  simp only [closePortOut]
  split
  · exact ⟨rfl, rfl, rfl, rfl⟩
  · obtain ⟨a1, a2, a3, _, a5⟩ := runCallbacksOut_ghost k { st with sem_needpost := true }
    split
    · exact ⟨a1, a2, a3, a5⟩
    · exact ⟨a1, a2, a3, a5⟩

theorem sendMessageOut_ghost (m : List Nat) (st : OutState) :
    (sendMessageOut m st).client = st.client ∧
    (sendMessageOut m st).rbPairsCreated = st.rbPairsCreated ∧
    (sendMessageOut m st).rbPairsFreed = st.rbPairsFreed := by
  unfold sendMessageOut
  cases st.buffers <;> exact ⟨rfl, rfl, rfl⟩

theorem stepOut_freed (op : OutOp) (st : OutState) :
    (stepOut op st).rbPairsFreed = st.rbPairsFreed := by
  cases op with
  | openPort sr rk p i =>
    show (openPortOut sr rk p i st).1.rbPairsFreed = st.rbPairsFreed
    rw [openPortOut_state]
    have h1 := (connectOut_ghost sr st).1
    have h2 := (registerOut_ghost rk (connectOut sr st).1).2.2.1
    have h3 := (connectOut_ghost sr (registerOut rk (connectOut sr st).1)).1
    split
    · exact h2.trans h1
    · exact h3.trans (h2.trans h1)
  | openVirtualPort sr rk =>
    show (openVirtualPortOut sr rk st).1.rbPairsFreed = st.rbPairsFreed
    rw [openVirtualPortOut_state]
    exact ((registerOut_ghost rk (connectOut sr st).1).2.2.1).trans (connectOut_ghost sr st).1
  | closePort k => exact (closePortOut_ghost k st).2.2.1
  | sendMessage m => exact (sendMessageOut_ghost m st).2.2
  | getPortCount sr p =>
    show (getPortCountOut sr p st).1.rbPairsFreed = st.rbPairsFreed
    rw [getPortCountOut_state]
    exact (connectOut_ghost sr st).1
  | getPortName sr p i =>
    show (getPortNameOut sr p i st).1.rbPairsFreed = st.rbPairsFreed
    rw [getPortNameOut_state]
    exact (connectOut_ghost sr st).1
  | setPortName => rfl
  | setClientName => rfl
  | processCallback => exact (jackProcessOutStep_ghost st).2.2.1

theorem stepOut_client_ghost (op : OutOp) (st : OutState) (h : st.client = true) :
    (stepOut op st).client = true ∧
    (stepOut op st).rbPairsCreated = st.rbPairsCreated := by
  cases op with
  | openPort sr rk p i =>
    show (openPortOut sr rk p i st).1.client = true ∧
      (openPortOut sr rk p i st).1.rbPairsCreated = st.rbPairsCreated
    rw [openPortOut_state_of_client sr rk p i st h]
    exact ⟨(registerOut_ghost rk st).1.trans h, (registerOut_ghost rk st).2.1⟩
  | openVirtualPort sr rk =>
    show (openVirtualPortOut sr rk st).1.client = true ∧
      (openVirtualPortOut sr rk st).1.rbPairsCreated = st.rbPairsCreated
    rw [openVirtualPortOut_state, connectOut_of_client sr st h]
    exact ⟨(registerOut_ghost rk st).1.trans h, (registerOut_ghost rk st).2.1⟩
  | closePort k =>
    exact ⟨(closePortOut_ghost k st).1.trans h, (closePortOut_ghost k st).2.1⟩
  | sendMessage m =>
    exact ⟨(sendMessageOut_ghost m st).1.trans h, (sendMessageOut_ghost m st).2.1⟩
  | getPortCount sr p =>
    show (getPortCountOut sr p st).1.client = true ∧
      (getPortCountOut sr p st).1.rbPairsCreated = st.rbPairsCreated
    rw [getPortCountOut_state, connectOut_of_client sr st h]
    exact ⟨h, rfl⟩
  | getPortName sr p i =>
    show (getPortNameOut sr p i st).1.client = true ∧
      (getPortNameOut sr p i st).1.rbPairsCreated = st.rbPairsCreated
    rw [getPortNameOut_state, connectOut_of_client sr st h]
    exact ⟨h, rfl⟩
  | setPortName => exact ⟨h, rfl⟩
  | setClientName => exact ⟨h, rfl⟩
  | processCallback =>
    exact ⟨(jackProcessOutStep_ghost st).1.trans h, (jackProcessOutStep_ghost st).2.1⟩

theorem runOut_client_ghost (ops : List OutOp) (st : OutState) (h : st.client = true) :
    (runOut ops st).client = true ∧
    (runOut ops st).rbPairsCreated = st.rbPairsCreated ∧
    (runOut ops st).rbPairsFreed = st.rbPairsFreed := by
  induction ops generalizing st with
  | nil => exact ⟨h, rfl, rfl⟩
  | cons op rest ih =>
    obtain ⟨a1, a2⟩ := stepOut_client_ghost op st h
    have a3 := stepOut_freed op st
    obtain ⟨b1, b2, b3⟩ := ih (stepOut op st) a1
    exact ⟨b1, b2.trans a2, b3.trans a3⟩

/-- C8 (counterexample): the claim "no operation other than the first
connect creates ringbuffers" fails on the code. With the server not
running, the constructor's connect creates the ringbuffer pair but leaves
`data.client` null, so a later `get_port_count` re-enters `connect` and
creates a second ringbuffer pair. -/
theorem out_ringbuffers_created_twice_cex :
    (mkOutState false).1.rbPairsCreated = 1 ∧
    (stepOut (.getPortCount false none) (mkOutState false).1).rbPairsCreated = 2 ∧
    ¬ (stepOut (.getPortCount false none) (mkOutState false).1).rbPairsCreated ≤ 1 := by
  decide

/-- C8 (amended): the ringbuffer pair is created by every `connect` call
that finds the client unset (so repeated failed connects create further
pairs); once the constructor's connect has opened the client, no public
operation creates ringbuffers, no public operation frees them, and only
the destructor frees them, exactly once. -/
theorem out_ringbuffers_lifecycle :
    ((mkOutState true).1.client = true ∧
     (mkOutState true).1.rbPairsCreated = 1 ∧
     (mkOutState true).1.rbPairsFreed = 0) ∧
    (∀ ops (st : OutState), st.client = true →
       (runOut ops st).rbPairsCreated = st.rbPairsCreated ∧
       (runOut ops st).rbPairsFreed = st.rbPairsFreed) ∧
    (∀ op (st : OutState), (stepOut op st).rbPairsFreed = st.rbPairsFreed) ∧
    (∀ k (st : OutState), (dtorOut k st).rbPairsFreed = st.rbPairsFreed + 1 ∧
       (dtorOut k st).rbPairsCreated = st.rbPairsCreated) := by
  refine ⟨⟨rfl, rfl, rfl⟩, ?_, stepOut_freed, ?_⟩
  · intro ops st h
    exact ⟨(runOut_client_ghost ops st h).2.1, (runOut_client_ghost ops st h).2.2⟩
  · intro k st
    constructor
    · show (closePortOut k st).1.rbPairsFreed + 1 = st.rbPairsFreed + 1
      rw [(closePortOut_ghost k st).2.2.1]
    · show (closePortOut k st).1.rbPairsCreated = st.rbPairsCreated
      exact (closePortOut_ghost k st).2.1

/-- Witness for the amended C8: a concrete operation sequence on a
connected instance leaves the creation count at 1. -/
theorem out_ringbuffers_lifecycle_witness :
    (mkOutState true).1.client = true ∧
    (runOut [.sendMessage [1, 2], .processCallback, .getPortCount true none]
        (mkOutState true).1).rbPairsCreated = (mkOutState true).1.rbPairsCreated ∧
    (runOut [.sendMessage [1, 2], .processCallback, .getPortCount true none]
        (mkOutState true).1).rbPairsFreed = (mkOutState true).1.rbPairsFreed :=
  ⟨by decide,
   (out_ringbuffers_lifecycle.2.1 _ (mkOutState true).1 (by decide)).1,
   (out_ringbuffers_lifecycle.2.1 _ (mkOutState true).1 (by decide)).2⟩

theorem connectIn_of_client (sr : Bool) (s : InState) (h : s.client = true) :
    connectIn sr s = (s, []) := by
  simp [connectIn, h]

theorem connectIn_ghost (sr : Bool) (s : InState) :
    (connectIn sr s).1.port = s.port ∧
    (connectIn sr s).1.registrations = s.registrations := by
  unfold connectIn
  split
  · exact ⟨rfl, rfl⟩
  · split
    · exact ⟨rfl, rfl⟩
    · exact ⟨rfl, rfl⟩

theorem getPortNameIn_state (sr : Bool) (p : Option (List String)) (i : Nat)
    (s : InState) : (getPortNameIn sr p i s).1 = (connectIn sr s).1 := by
  unfold getPortNameIn
  cases h : jackGetPorts (connectIn sr s).1.client p with
  | none => simp [h]
  | some l =>
    cases h2 : portsArrayRead l i with
    | none => simp [h, h2]
    | some o => cases o <;> simp [h, h2]

theorem openPortIn_state (sr rk : Bool) (p : Option (List String)) (i : Nat)
    (st : InState) :
    (openPortIn sr rk p i st).1
      = (if (registerIn rk (connectIn sr st).1).port = false
         then registerIn rk (connectIn sr st).1
         else (connectIn sr (registerIn rk (connectIn sr st).1)).1) := by
  simp only [openPortIn]
  split
  · rfl
  · exact getPortNameIn_state sr p i _

theorem openVirtualPortIn_state (sr rk : Bool) (st : InState) :
    (openVirtualPortIn sr rk st).1 = registerIn rk (connectIn sr st).1 := by
  simp only [openVirtualPortIn]
  split <;> rfl

theorem openPortIn_portreg (sr rk : Bool) (p : Option (List String)) (i : Nat)
    (st : InState) :
    (openPortIn sr rk p i st).1.port = (registerIn rk (connectIn sr st).1).port ∧
    (openPortIn sr rk p i st).1.registrations
      = (registerIn rk (connectIn sr st).1).registrations := by
  rw [openPortIn_state]
  split
  · exact ⟨rfl, rfl⟩
  · exact ⟨(connectIn_ghost sr _).1, (connectIn_ghost sr _).2⟩

theorem openPortOut_portreg (sr rk : Bool) (p : Option (List String)) (i : Nat)
    (st : OutState) :
    (openPortOut sr rk p i st).1.port = (registerOut rk (connectOut sr st).1).port ∧
    (openPortOut sr rk p i st).1.registrations
      = (registerOut rk (connectOut sr st).1).registrations := by
  rw [openPortOut_state]
  split
  · exact ⟨rfl, rfl⟩
  · exact ⟨(connectOut_ghost sr _).2.1, (connectOut_ghost sr _).2.2⟩

theorem registerIn_inv (rk : Bool) (s : InState)
    (h : s.registrations = if s.port then 1 else 0) :
    (registerIn rk s).registrations = if (registerIn rk s).port then 1 else 0 := by
  unfold registerIn
  split
  · simp_all
  · split
    · simp_all
    · simp_all

theorem registerOut_inv (rk : Bool) (s : OutState)
    (h : s.registrations = if s.port then 1 else 0) :
    (registerOut rk s).registrations = if (registerOut rk s).port then 1 else 0 := by
  unfold registerOut
  split
  · simp_all
  · split
    · simp_all
    · simp_all

theorem registerIn_of_port (rk : Bool) (s : InState) (h : s.port = true) :
    registerIn rk s = s := by
  simp [registerIn, h]

theorem registerOut_of_port (rk : Bool) (s : OutState) (h : s.port = true) :
    registerOut rk s = s := by
  simp [registerOut, h]

theorem connectIn_inv (sr : Bool) (st : InState)
    (h : st.registrations = if st.port then 1 else 0) :
    (connectIn sr st).1.registrations = if (connectIn sr st).1.port then 1 else 0 := by
  rw [(connectIn_ghost sr st).1, (connectIn_ghost sr st).2]
  exact h

theorem connectOut_inv (sr : Bool) (st : OutState)
    (h : st.registrations = if st.port then 1 else 0) :
    (connectOut sr st).1.registrations = if (connectOut sr st).1.port then 1 else 0 := by
  rw [(connectOut_ghost sr st).2.1, (connectOut_ghost sr st).2.2]
  exact h

theorem stepOpenIn_inv (op : OpenOp) (st : InState)
    (h : st.registrations = if st.port then 1 else 0) :
    (stepOpenIn op st).registrations = if (stepOpenIn op st).port then 1 else 0 := by
  cases op with
  | portOp sr rk p i =>
    show (openPortIn sr rk p i st).1.registrations
      = if (openPortIn sr rk p i st).1.port then 1 else 0
    rw [(openPortIn_portreg sr rk p i st).1, (openPortIn_portreg sr rk p i st).2]
    exact registerIn_inv rk _ (connectIn_inv sr st h)
  | virtualOp sr rk =>
    show (openVirtualPortIn sr rk st).1.registrations
      = if (openVirtualPortIn sr rk st).1.port then 1 else 0
    rw [openVirtualPortIn_state]
    exact registerIn_inv rk _ (connectIn_inv sr st h)

theorem stepOpenOut_inv (op : OpenOp) (st : OutState)
    (h : st.registrations = if st.port then 1 else 0) :
    (stepOpenOut op st).registrations = if (stepOpenOut op st).port then 1 else 0 := by
  cases op with
  | portOp sr rk p i =>
    show (openPortOut sr rk p i st).1.registrations
      = if (openPortOut sr rk p i st).1.port then 1 else 0
    rw [(openPortOut_portreg sr rk p i st).1, (openPortOut_portreg sr rk p i st).2]
    exact registerOut_inv rk _ (connectOut_inv sr st h)
  | virtualOp sr rk =>
    show (openVirtualPortOut sr rk st).1.registrations
      = if (openVirtualPortOut sr rk st).1.port then 1 else 0
    rw [openVirtualPortOut_state]
    exact registerOut_inv rk _ (connectOut_inv sr st h)

theorem stepOpenIn_noreg (op : OpenOp) (st : InState) (h : st.port = true) :
    (stepOpenIn op st).registrations = st.registrations ∧
    (stepOpenIn op st).port = true := by
  cases op with
  | portOp sr rk p i =>
    have hp : (connectIn sr st).1.port = true := (connectIn_ghost sr st).1.trans h
    show (openPortIn sr rk p i st).1.registrations = st.registrations ∧
      (openPortIn sr rk p i st).1.port = true
    rw [(openPortIn_portreg sr rk p i st).1, (openPortIn_portreg sr rk p i st).2,
      registerIn_of_port rk _ hp]
    exact ⟨(connectIn_ghost sr st).2, hp⟩
  | virtualOp sr rk =>
    have hp : (connectIn sr st).1.port = true := (connectIn_ghost sr st).1.trans h
    show (openVirtualPortIn sr rk st).1.registrations = st.registrations ∧
      (openVirtualPortIn sr rk st).1.port = true
    rw [openVirtualPortIn_state, registerIn_of_port rk _ hp]
    exact ⟨(connectIn_ghost sr st).2, hp⟩

theorem stepOpenOut_noreg (op : OpenOp) (st : OutState) (h : st.port = true) :
    (stepOpenOut op st).registrations = st.registrations ∧
    (stepOpenOut op st).port = true := by
  cases op with
  | portOp sr rk p i =>
    have hp : (connectOut sr st).1.port = true := (connectOut_ghost sr st).2.1.trans h
    show (openPortOut sr rk p i st).1.registrations = st.registrations ∧
      (openPortOut sr rk p i st).1.port = true
    rw [(openPortOut_portreg sr rk p i st).1, (openPortOut_portreg sr rk p i st).2,
      registerOut_of_port rk _ hp]
    exact ⟨(connectOut_ghost sr st).2.2, hp⟩
  | virtualOp sr rk =>
    have hp : (connectOut sr st).1.port = true := (connectOut_ghost sr st).2.1.trans h
    show (openVirtualPortOut sr rk st).1.registrations = st.registrations ∧
      (openVirtualPortOut sr rk st).1.port = true
    rw [openVirtualPortOut_state, registerOut_of_port rk _ hp]
    exact ⟨(connectOut_ghost sr st).2.2, hp⟩

theorem runOpenIn_inv (ops : List OpenOp) (st : InState)
    (h : st.registrations = if st.port then 1 else 0) :
    (runOpenIn ops st).registrations = if (runOpenIn ops st).port then 1 else 0 := by
  induction ops generalizing st with
  | nil => exact h
  | cons op rest ih => exact ih (stepOpenIn op st) (stepOpenIn_inv op st h)

theorem runOpenOut_inv (ops : List OpenOp) (st : OutState)
    (h : st.registrations = if st.port then 1 else 0) :
    (runOpenOut ops st).registrations = if (runOpenOut ops st).port then 1 else 0 := by
  induction ops generalizing st with
  | nil => exact h
  | cons op rest ih => exact ih (stepOpenOut op st) (stepOpenOut_inv op st h)

/-- C5: for all sequences of `open_port` / `open_virtual_port` calls with
no intervening `close_port`, at most one port is successfully registered
with the server per backend instance (the `registrations` ghost counter
counts successful `jack_port_register` calls and never exceeds one, and
equals one exactly when a port handle exists); a second open while a port
exists performs no new registration and keeps the port. Both backends. -/
theorem port_singleton :
    (∀ (ops : List OpenOp) (st : InState),
       st.registrations = (if st.port then 1 else 0) →
       (runOpenIn ops st).registrations = (if (runOpenIn ops st).port then 1 else 0) ∧
       (runOpenIn ops st).registrations ≤ 1) ∧
    (∀ (op : OpenOp) (st : InState), st.port = true →
       (stepOpenIn op st).registrations = st.registrations ∧
       (stepOpenIn op st).port = true) ∧
    (∀ (ops : List OpenOp) (st : OutState),
       st.registrations = (if st.port then 1 else 0) →
       (runOpenOut ops st).registrations = (if (runOpenOut ops st).port then 1 else 0) ∧
       (runOpenOut ops st).registrations ≤ 1) ∧
    (∀ (op : OpenOp) (st : OutState), st.port = true →
       (stepOpenOut op st).registrations = st.registrations ∧
       (stepOpenOut op st).port = true) := by
  refine ⟨?_, stepOpenIn_noreg, ?_, stepOpenOut_noreg⟩
  · intro ops st h
    have hi := runOpenIn_inv ops st h
    refine ⟨hi, ?_⟩
    rw [hi]
    split <;> omega
  · intro ops st h
    have hi := runOpenOut_inv ops st h
    refine ⟨hi, ?_⟩
    rw [hi]
    split <;> omega

/-- Witness for C5 at a concrete double-open sequence on a fresh input
instance and a concrete second open on an output instance with a port. -/
theorem port_singleton_witness :
    (({ client := false, port := false, registrations := 0 } : InState).registrations
        = (if ({ client := false, port := false, registrations := 0 } : InState).port
           then 1 else 0)) ∧
    (runOpenIn [.virtualOp true true, .virtualOp true true]
       { client := false, port := false, registrations := 0 }).registrations ≤ 1 ∧
    (({ client := true, port := true, buffers := some initOutBuffers,
        sem_needpost := false, sem_cleanup := false, rbPairsCreated := 1,
        rbPairsFreed := 0, registrations := 1, emitted := [] } : OutState).port = true) ∧
    (stepOpenOut (.virtualOp true true)
       { client := true, port := true, buffers := some initOutBuffers,
         sem_needpost := false, sem_cleanup := false, rbPairsCreated := 1,
         rbPairsFreed := 0, registrations := 1, emitted := [] }).registrations
      = ({ client := true, port := true, buffers := some initOutBuffers,
           sem_needpost := false, sem_cleanup := false, rbPairsCreated := 1,
           rbPairsFreed := 0, registrations := 1, emitted := [] } : OutState).registrations :=
  ⟨by decide,
   (port_singleton.1 [.virtualOp true true, .virtualOp true true] _ (by decide)).2,
   by decide,
   (port_singleton.2.2.2 (.virtualOp true true) _ (by decide)).1⟩

theorem closePortIn_of_noport (st : InState) (h : st.port = false) :
    closePortIn st = (st, [], []) := by
  simp [closePortIn, h]

theorem closePortIn_facts (st : InState) :
    (closePortIn st).1.port = false ∧
    (closePortIn st).2.1 = [] ∧ (closePortIn st).2.2 = [] := by
  unfold closePortIn
  split
  · next h => exact ⟨by simpa using h, rfl, rfl⟩
  · exact ⟨rfl, rfl, rfl⟩

theorem closePortOut_of_noport (k : Nat) (st : OutState) (h : st.port = false) :
    closePortOut k st = (st, [], []) := by
  simp [closePortOut, h]

theorem closePortOut_facts (k : Nat) (st : OutState) :
    (closePortOut k st).1.port = false ∧
    (closePortOut k st).2.1 = [] ∧ (closePortOut k st).2.2 = [] := by
  simp only [closePortOut]
  split
  · next h => exact ⟨by simpa using h, rfl, rfl⟩
  · split
    · exact ⟨rfl, rfl, rfl⟩
    · exact ⟨rfl, rfl, rfl⟩

/-- C4: `close_port` is idempotent and never raises on both backends:
every call returns no warning and no error; after a call no port is open;
a call with no port open returns silently leaving the state untouched (in
particular it does not reach the server); any number of repeated calls
after one close leaves the state of the single call; and the output-side
close absorbs the ack timeout (the result is as stated for every number
`k` of callback invocations during the wait, including `k = 0`, the
timeout case). -/
theorem close_port_idempotent :
    (∀ st : InState, st.port = false → closePortIn st = (st, [], [])) ∧
    (∀ st : InState, (closePortIn st).1.port = false ∧
       (closePortIn st).2.1 = [] ∧ (closePortIn st).2.2 = []) ∧
    (∀ st : InState, closePortIn (closePortIn st).1 = ((closePortIn st).1, [], [])) ∧
    (∀ (n : Nat) (st : InState),
       (fun s => (closePortIn s).1)^[n] (closePortIn st).1 = (closePortIn st).1) ∧
    (∀ (k : Nat) (st : OutState), st.port = false → closePortOut k st = (st, [], [])) ∧
    (∀ (k : Nat) (st : OutState), (closePortOut k st).1.port = false ∧
       (closePortOut k st).2.1 = [] ∧ (closePortOut k st).2.2 = []) ∧
    (∀ (k k' : Nat) (st : OutState),
       closePortOut k' (closePortOut k st).1 = ((closePortOut k st).1, [], [])) ∧
    (∀ (ks : List Nat) (k : Nat) (st : OutState),
       ks.foldl (fun s j => (closePortOut j s).1) (closePortOut k st).1
         = (closePortOut k st).1) := by
  refine ⟨closePortIn_of_noport, closePortIn_facts, ?_, ?_, closePortOut_of_noport,
    closePortOut_facts, ?_, ?_⟩
  · intro st
    exact closePortIn_of_noport _ (closePortIn_facts st).1
  · intro n st
    induction n with
    | zero => rfl
    | succ n ih =>
      rw [Function.iterate_succ_apply, closePortIn_of_noport _ (closePortIn_facts st).1]
      exact ih
  · intro k k' st
    exact closePortOut_of_noport k' _ (closePortOut_facts k st).1
  · intro ks k st
    induction ks with
    | nil => rfl
    | cons j rest ih =>
      have hfix : (closePortOut j (closePortOut k st).1).1 = (closePortOut k st).1 := by
        rw [closePortOut_of_noport j _ (closePortOut_facts k st).1]
      simpa [List.foldl_cons, hfix] using ih

/-- Witness for C4 at concrete states: a closed input instance and an
output instance with a port, closed twice with differing callback
schedules. -/
theorem close_port_idempotent_witness :
    (({ client := true, port := false, registrations := 0 } : InState).port = false) ∧
    closePortIn { client := true, port := false, registrations := 0 }
      = ({ client := true, port := false, registrations := 0 }, [], []) ∧
    closePortOut 0
        (closePortOut 1
          { client := true, port := true, buffers := some initOutBuffers,
            sem_needpost := false, sem_cleanup := false, rbPairsCreated := 1,
            rbPairsFreed := 0, registrations := 1, emitted := [] }).1
      = ((closePortOut 1
          { client := true, port := true, buffers := some initOutBuffers,
            sem_needpost := false, sem_cleanup := false, rbPairsCreated := 1,
            rbPairsFreed := 0, registrations := 1, emitted := [] }).1, [], []) :=
  ⟨by decide,
   close_port_idempotent.1 _ (by decide),
   close_port_idempotent.2.2.2.2.2.2.1 1 0 _⟩

theorem jackProcessOutStep_sems (s : OutState) :
    (jackProcessOutStep s).sem_needpost = false ∨ jackProcessOutStep s = s ∧ s.port = false := by
  unfold jackProcessOutStep
  split
  · next h => exact Or.inr ⟨rfl, by simpa using h⟩
  · cases hb : s.buffers <;> simp only [hb] <;> split
    · exact Or.inl rfl
    · next h2 => exact Or.inl (by simpa using h2)
    · exact Or.inl rfl
    · next h2 => exact Or.inl (by simpa using h2)

theorem jackProcessOutStep_noreq (s : OutState) (h : s.sem_needpost = false) :
    (jackProcessOutStep s).sem_cleanup = s.sem_cleanup ∧
    (jackProcessOutStep s).sem_needpost = false := by
  unfold jackProcessOutStep
  split
  · exact ⟨rfl, h⟩
  · cases hb : s.buffers <;> simp only [hb] <;> split
    · next h2 => exact absurd h2 (by simp [h])
    · exact ⟨rfl, h⟩
    · next h2 => exact absurd h2 (by simp [h])
    · exact ⟨rfl, h⟩

theorem jackProcessOutStep_req (s : OutState) (hp : s.port = true)
    (h : s.sem_needpost = true) :
    (jackProcessOutStep s).sem_cleanup = true ∧
    (jackProcessOutStep s).sem_needpost = false := by
  unfold jackProcessOutStep
  split
  · next h2 => rw [hp] at h2; exact absurd h2 (by simp)
  · cases hb : s.buffers <;> simp only [hb] <;> split
    · exact ⟨rfl, rfl⟩
    · next h2 => exact absurd (by simpa using h) h2
    · exact ⟨rfl, rfl⟩
    · next h2 => exact absurd (by simpa using h) h2

theorem runCallbacksOut_noreq (j : Nat) (s : OutState) (h : s.sem_needpost = false) :
    (runCallbacksOut j s).sem_cleanup = s.sem_cleanup ∧
    (runCallbacksOut j s).sem_needpost = false := by
  induction j generalizing s with
  | zero => exact ⟨rfl, h⟩
  | succ j ih =>
    obtain ⟨a1, a2⟩ := jackProcessOutStep_noreq s h
    obtain ⟨b1, b2⟩ := ih (jackProcessOutStep s) a2
    exact ⟨b1.trans a1, b2⟩

theorem runCallbacksOut_req (j : Nat) (s : OutState) (hp : s.port = true)
    (h : s.sem_needpost = true) :
    (runCallbacksOut (j + 1) s).sem_cleanup = true ∧
    (runCallbacksOut (j + 1) s).sem_needpost = false := by
  obtain ⟨a1, a2⟩ := jackProcessOutStep_req s hp h
  obtain ⟨b1, b2⟩ := runCallbacksOut_noreq j (jackProcessOutStep s) a2
  exact ⟨b1.trans a1, b2⟩

/-- C2: in the output backend's `close_port` with a port open, the user
thread signals the shutdown-request semaphore, waits on the shutdown-ack
semaphore (1 s timeout), and then unregisters the port. The ack is
signalled only from inside the real-time callback (a callback that
observes no pending request leaves the ack untouched), on the first
invocation that observes the request (that invocation consumes the
request and signals the ack; later invocations see no request); the port
ends unregistered for every callback schedule `k`, with the ack consumed
when at least one callback ran (`1 ≤ k`) and the request still pending
when none did (`k = 0`, the timeout path). -/
theorem out_close_handshake (st : OutState) (k : Nat)
    (hp : st.port = true) (hn : st.sem_needpost = false) (hc : st.sem_cleanup = false) :
    ((closePortOut k st).1.port = false ∧
     (closePortOut k st).2.1 = [] ∧ (closePortOut k st).2.2 = []) ∧
    ((jackProcessOutStep { st with sem_needpost := true }).sem_cleanup = true ∧
     (jackProcessOutStep { st with sem_needpost := true }).sem_needpost = false) ∧
    (∀ j : Nat,
       (runCallbacksOut (j + 1) { st with sem_needpost := true }).sem_cleanup = true ∧
       (runCallbacksOut (j + 1) { st with sem_needpost := true }).sem_needpost = false) ∧
    (∀ s : OutState, s.sem_needpost = false →
       (jackProcessOutStep s).sem_cleanup = s.sem_cleanup) ∧
    (k = 0 → (closePortOut k st).1.sem_needpost = true ∧
       (closePortOut k st).1.sem_cleanup = false) ∧
    (1 ≤ k → (closePortOut k st).1.sem_needpost = false ∧
       (closePortOut k st).1.sem_cleanup = false) := by
  have hreq := jackProcessOutStep_req { st with sem_needpost := true } (by simpa using hp) rfl
  refine ⟨⟨(closePortOut_facts k st).1, (closePortOut_facts k st).2.1,
      (closePortOut_facts k st).2.2⟩,
    hreq,
    (fun j => runCallbacksOut_req j _ (by simpa using hp) rfl),
    (fun s hs => (jackProcessOutStep_noreq s hs).1), ?_, ?_⟩
  · intro hk
    subst hk
    simp only [closePortOut, hp]
    simp [runCallbacksOut, hc]
  · intro hk
    obtain ⟨j, rfl⟩ : ∃ j, k = j + 1 := ⟨k - 1, by omega⟩
    obtain ⟨r1, r2⟩ := runCallbacksOut_req j { st with sem_needpost := true }
      (by simpa using hp) rfl
    rw [hp] at r1 r2
    simp only [closePortOut, hp]
    simp [r1, r2]

/-- Witness for C2 at a concrete open output state with `k = 1`. -/
theorem out_close_handshake_witness :
    (({ client := true, port := true, buffers := some initOutBuffers,
        sem_needpost := false, sem_cleanup := false, rbPairsCreated := 1,
        rbPairsFreed := 0, registrations := 1, emitted := [] } : OutState).port = true) ∧
    (closePortOut 1
      { client := true, port := true, buffers := some initOutBuffers,
        sem_needpost := false, sem_cleanup := false, rbPairsCreated := 1,
        rbPairsFreed := 0, registrations := 1, emitted := [] }).1.port = false ∧
    (1 ≤ 1 → (closePortOut 1
      { client := true, port := true, buffers := some initOutBuffers,
        sem_needpost := false, sem_cleanup := false, rbPairsCreated := 1,
        rbPairsFreed := 0, registrations := 1, emitted := [] }).1.sem_needpost = false ∧
      (closePortOut 1
      { client := true, port := true, buffers := some initOutBuffers,
        sem_needpost := false, sem_cleanup := false, rbPairsCreated := 1,
        rbPairsFreed := 0, registrations := 1, emitted := [] }).1.sem_cleanup = false) :=
  ⟨by decide,
   (out_close_handshake _ 1 (by decide) (by decide) (by decide)).1.1,
   (out_close_handshake _ 1 (by decide) (by decide) (by decide)).2.2.2.2.2⟩

/-- C6 (counterexample): the claim "get_port_name(i) with i >= count
warns and returns an empty string, for every such index i" fails on the
code: with one peer port (count 1) and index 2, the source reads
`ports[2]`, one past the NULL terminator — an out-of-bounds read with no
defined warn-and-return-empty outcome (the model's undefined-behaviour
value `none`), and no warning is emitted. -/
theorem get_port_name_oob_cex :
    (getPortCountIn true (some ["a"])
       { client := true, port := false, registrations := 0 }).2.1 ≤ 2 ∧
    (getPortNameIn true (some ["a"]) 2
       { client := true, port := false, registrations := 0 }).2.1 ≠ some "" ∧
    (getPortNameIn true (some ["a"]) 2
       { client := true, port := false, registrations := 0 }).2.1 = none ∧
    (getPortNameIn true (some ["a"]) 2
       { client := true, port := false, registrations := 0 }).2.2.1 = [] := by
  decide

/-- C6 (amended): `get_port_count()` on an unconnected instance (no
client and the server still down, so `connect` cannot attach) returns 0
and raises no error. `get_port_name(i)` warns and returns the empty
string, raising no error, in exactly the defined out-of-range cases: when
the enumeration returns no array (any index), and when `i` equals the
count (the read hits the NULL terminator); for `i` strictly greater than
the count the source performs an out-of-bounds read past the terminator
— undefined behaviour — and the warn-and-return-empty guarantee does not
hold. Shown for the input backend's count and name and the output
backend's name. -/
theorem enumeration_safety :
    (∀ (p : Option (List String)) (st : InState), st.client = false →
       (getPortCountIn false p st).2.1 = 0 ∧ (getPortCountIn false p st).2.2.2 = []) ∧
    (∀ (sr : Bool) (p : Option (List String)) (i : Nat) (st : InState),
       jackGetPorts (connectIn sr st).1.client p = none →
       (getPortNameIn sr p i st).2.1 = some "" ∧
       Warn.noPortsAvailable ∈ (getPortNameIn sr p i st).2.2.1 ∧
       (getPortNameIn sr p i st).2.2.2 = []) ∧
    (∀ (sr : Bool) (p : Option (List String)) (l : List String) (st : InState),
       jackGetPorts (connectIn sr st).1.client p = some l →
       (getPortNameIn sr p l.length st).2.1 = some "" ∧
       Warn.invalidPortNumber l.length ∈ (getPortNameIn sr p l.length st).2.2.1 ∧
       (getPortNameIn sr p l.length st).2.2.2 = []) ∧
    (∀ (sr : Bool) (p : Option (List String)) (l : List String) (i : Nat) (st : InState),
       jackGetPorts (connectIn sr st).1.client p = some l → l.length < i →
       (getPortNameIn sr p i st).2.1 = none ∧
       (getPortNameIn sr p i st).2.2.1 = (connectIn sr st).2) ∧
    (∀ (sr : Bool) (p : Option (List String)) (i : Nat) (st : OutState),
       jackGetPorts (connectOut sr st).1.client p = none →
       (getPortNameOut sr p i st).2.1 = some "" ∧
       Warn.noPortsAvailable ∈ (getPortNameOut sr p i st).2.2.1 ∧
       (getPortNameOut sr p i st).2.2.2 = []) ∧
    (∀ (sr : Bool) (p : Option (List String)) (l : List String) (st : OutState),
       jackGetPorts (connectOut sr st).1.client p = some l →
       (getPortNameOut sr p l.length st).2.1 = some "" ∧
       Warn.invalidPortNumber l.length ∈ (getPortNameOut sr p l.length st).2.2.1 ∧
       (getPortNameOut sr p l.length st).2.2.2 = []) ∧
    (∀ (sr : Bool) (p : Option (List String)) (l : List String) (i : Nat) (st : OutState),
       jackGetPorts (connectOut sr st).1.client p = some l → l.length < i →
       (getPortNameOut sr p i st).2.1 = none ∧
       (getPortNameOut sr p i st).2.2.1 = (connectOut sr st).2) := by
  have hterm : ∀ (l : List String), portsArrayRead l l.length = some none := by
    intro l
    simp [portsArrayRead]
  have hoob : ∀ (l : List String) (i : Nat), l.length < i → portsArrayRead l i = none := by
    intro l i hi
    have h1 : ¬ i < l.length := by omega
    have h2 : ¬ i = l.length := by omega
    simp [portsArrayRead, h1, h2]
  refine ⟨?_, ?_, ?_, ?_, ?_, ?_, ?_⟩
  · intro p st h
    simp [getPortCountIn, connectIn, h]
  · intro sr p i st h
    simp [getPortNameIn, h]
  · intro sr p l st h
    simp [getPortNameIn, h, hterm l]
  · intro sr p l i st h hi
    simp [getPortNameIn, h, hoob l i hi]
  · intro sr p i st h
    simp [getPortNameOut, h]
  · intro sr p l st h
    simp [getPortNameOut, h, hterm l]
  · intro sr p l i st h hi
    simp [getPortNameOut, h, hoob l i hi]

/-- Witness for the amended C6 at a fresh disconnected input instance and
a connected output instance with two peer ports queried at index 2 (the
terminator position). -/
theorem enumeration_safety_witness :
    (({ client := false, port := false, registrations := 0 } : InState).client = false) ∧
    (getPortCountIn false none
       { client := false, port := false, registrations := 0 }).2.1 = 0 ∧
    (jackGetPorts (connectOut true
        { client := true, port := false, buffers := some initOutBuffers,
          sem_needpost := false, sem_cleanup := false, rbPairsCreated := 1,
          rbPairsFreed := 0, registrations := 0, emitted := [] }).1.client
        (some ["a", "b"]) = some ["a", "b"]) ∧
    (getPortNameOut true (some ["a", "b"]) (["a", "b"] : List String).length
       { client := true, port := false, buffers := some initOutBuffers,
         sem_needpost := false, sem_cleanup := false, rbPairsCreated := 1,
         rbPairsFreed := 0, registrations := 0, emitted := [] }).2.1 = some "" :=
  ⟨by decide,
   (enumeration_safety.1 none _ (by decide)).1,
   by decide,
   (enumeration_safety.2.2.2.2.2.1 true (some ["a", "b"]) ["a", "b"] _ (by decide)).1⟩

/-- C7: when the server is not running, the output backend's `connect`
emits the "server not running?" warning and leaves the instance
unconnected; `get_port_count` on that instance returns 0 raising no
error and leaves it unconnected; a subsequent `open_port` on the
unconnected instance raises a driver error and registers no port. -/
theorem server_down_behavior (st : OutState) (p : Option (List String)) (i : Nat)
    (rk : Bool) (hc : st.client = false) (hp : st.port = false) :
    ((connectOut false st).1.client = false ∧
     (connectOut false st).2 = [Warn.serverNotRunning]) ∧
    ((getPortCountOut false p st).2.1 = 0 ∧
     (getPortCountOut false p st).2.2.2 = [] ∧
     (getPortCountOut false p st).1.client = false) ∧
    ((openPortOut false rk p i st).2.2 = [Err.driverError] ∧
     (openPortOut false rk p i st).1.port = false) := by
  have h1 : (connectOut false st).1.client = false := by
    simp [connectOut, hc]
  have h2 : (connectOut false st).1.port = false := (connectOut_ghost false st).2.1.trans hp
  have h3 : registerOut rk (connectOut false st).1 = (connectOut false st).1 := by
    simp [registerOut, h1, h2]
  have g1 : (getPortCountOut false p st).2.1 = 0 := by simp [getPortCountOut, h1]
  have g2 : (getPortCountOut false p st).2.2.2 = [] := by simp [getPortCountOut, h1]
  have g3 : (getPortCountOut false p st).1.client = false := by
    rw [getPortCountOut_state]
    exact h1
  have g4 : (openPortOut false rk p i st).2.2 = [Err.driverError] := by
    simp only [openPortOut, h3, h2, if_true]
  have g5 : (openPortOut false rk p i st).1.port = false := by
    simp only [openPortOut, h3, h2, if_true]
  exact ⟨⟨h1, by simp [connectOut, hc]⟩, ⟨g1, g2, g3⟩, g4, g5⟩

/-- Witness for C7 at a fresh output instance (post-constructor with the
server down). -/
theorem server_down_behavior_witness :
    ((mkOutState false).1.client = false) ∧
    (getPortCountOut false none (mkOutState false).1).2.1 = 0 ∧
    (openPortOut false true none 0 (mkOutState false).1).2.2 = [Err.driverError] :=
  ⟨by decide,
   (server_down_behavior (mkOutState false).1 none 0 true (by decide) (by decide)).2.1.1,
   (server_down_behavior (mkOutState false).1 none 0 true (by decide) (by decide)).2.2.1⟩

/-- C10: `set_port_name` on either backend passes the port handle
directly to the server rename primitive with no null check and no
warning: the instance state is untouched, no warning or error is
produced, and when no port is open the primitive receives the null handle
(modelled as the undefined-behaviour outcome `none`) — so the operation
carries the implicit precondition that a port is registered, under which
the rename succeeds. -/
theorem set_port_name_no_guard (stI : InState) (stO : OutState) :
    ((setPortNameIn stI).1 = stI ∧ (setPortNameIn stI).2.2.1 = [] ∧
     (setPortNameIn stI).2.2.2 = [] ∧
     (stI.port = false → (setPortNameIn stI).2.1 = none) ∧
     (stI.port = true → (setPortNameIn stI).2.1 = some ())) ∧
    ((setPortNameOut stO).1 = stO ∧ (setPortNameOut stO).2.2.1 = [] ∧
     (setPortNameOut stO).2.2.2 = [] ∧
     (stO.port = false → (setPortNameOut stO).2.1 = none) ∧
     (stO.port = true → (setPortNameOut stO).2.1 = some ())) := by
  refine ⟨⟨rfl, rfl, rfl, ?_, ?_⟩, rfl, rfl, rfl, ?_, ?_⟩ <;>
    intro h <;> simp [setPortNameIn, setPortNameOut, jackPortSetName, h]

/-- Witness for C10 at concrete states with no port open. -/
theorem set_port_name_no_guard_witness :
    (({ client := true, port := false, registrations := 0 } : InState).port = false) ∧
    (setPortNameIn { client := true, port := false, registrations := 0 }).2.1 = none ∧
    (setPortNameOut (mkOutState true).1).2.1 = none :=
  ⟨by decide,
   (set_port_name_no_guard { client := true, port := false, registrations := 0 }
      (mkOutState true).1).1.2.2.2.1 (by decide),
   (set_port_name_no_guard { client := true, port := false, registrations := 0 }
      (mkOutState true).1).2.2.2.2.1 (by decide)⟩

/-- The message value the input callback constructs for one event: bytes
copied from the event; timestamp left at its zero default for the first
message, else the 64-bit clock delta scaled by 1e-6. -/
def mkInMsg (st : InCbState) (ev : List Nat) (t : Nat) : InMessage :=
  if st.rt.firstMessage then ⟨ev, 0⟩
  else ⟨ev, (usub64 t st.lastTime : Rat) / 1000000⟩

theorem processEvent_msg (st : InCbState) (ev : List Nat) (t : Nat) :
    (processEvent st ev t).2.1.msg = mkInMsg st ev t := by
  cases hf : st.rt.firstMessage <;>
    simp only [processEvent, mkInMsg, hf, Bool.false_eq_true, if_false, if_true] <;>
    split <;>
    first
      | rfl
      | (split <;> first
          | rfl
          | (split <;> rfl))

theorem processEvent_lastTime (st : InCbState) (ev : List Nat) (t : Nat) :
    (processEvent st ev t).1.lastTime = t := by
  cases hf : st.rt.firstMessage <;>
    simp only [processEvent, hf, Bool.false_eq_true, if_false, if_true] <;>
    split <;>
    first
      | rfl
      | (split <;> first
          | rfl
          | (split <;> rfl))

theorem processEvent_rt_first (st : InCbState) (ev : List Nat) (t : Nat) :
    (processEvent st ev t).1.rt.firstMessage
      = (if st.rt.firstMessage then { st.rt with firstMessage := false }
         else st.rt).firstMessage := by
  simp only [processEvent]
  split_ifs <;> rfl

theorem processEvent_clears_first (st : InCbState) (ev : List Nat) (t : Nat)
    (hf : st.rt.firstMessage = true) :
    (processEvent st ev t).1.rt.firstMessage = false := by
  rw [processEvent_rt_first, hf]
  rfl

theorem usub64_eq (a b : Nat) (h1 : b ≤ a) (h2 : a < 18446744073709551616) :
    usub64 a b = a - b := by
  unfold usub64
  omega

theorem mkInMsg_ts_nonneg (st : InCbState) (ev : List Nat) (t : Nat) :
    0 ≤ (mkInMsg st ev t).timestamp := by
  unfold mkInMsg
  split
  · exact le_refl 0
  · exact div_nonneg (Nat.cast_nonneg _) (by norm_num)

theorem deliveredOf_cons (d : Delivery) (ds : List Delivery) :
    deliveredOf (d :: ds)
      = (match d with
          | .toCallback m => m :: deliveredOf ds
          | .queued m => m :: deliveredOf ds
          | _ => deliveredOf ds) := rfl

theorem jackProcessInAux_delivered_nonneg (evs : List (List Nat × Nat))
    (st : InCbState) :
    ∀ m ∈ deliveredOf (jackProcessInAux st evs).2.1, 0 ≤ m.timestamp := by
  induction evs generalizing st with
  | nil =>
    intro m hm
    simp [jackProcessInAux, deliveredOf] at hm
  | cons ev rest ih =>
    intro m hm
    simp only [jackProcessInAux] at hm
    rw [deliveredOf_cons] at hm
    have hmsg := processEvent_msg st ev.1 ev.2
    cases hd : (processEvent st ev.1 ev.2).2.1 with
    | discarded m1 =>
      rw [hd] at hm
      exact ih (processEvent st ev.1 ev.2).1 m hm
    | toCallback m1 =>
      rw [hd] at hm
      rcases List.mem_cons.mp hm with h | h
      · have hh : m1 = mkInMsg st ev.1 ev.2 := by
          rw [← hmsg, hd]
          rfl
        rw [h, hh]
        exact mkInMsg_ts_nonneg st ev.1 ev.2
      · exact ih (processEvent st ev.1 ev.2).1 m h
    | queued m1 =>
      rw [hd] at hm
      rcases List.mem_cons.mp hm with h | h
      · have hh : m1 = mkInMsg st ev.1 ev.2 := by
          rw [← hmsg, hd]
          rfl
        rw [h, hh]
        exact mkInMsg_ts_nonneg st ev.1 ev.2
      · exact ih (processEvent st ev.1 ev.2).1 m h
    | droppedQueueFull m1 =>
      rw [hd] at hm
      exact ih (processEvent st ev.1 ev.2).1 m hm

theorem processEvent_first_cb (st : InCbState) (ev : List Nat) (t : Nat)
    (hf : st.rt.firstMessage = true) (hs : st.rt.continueSysex = false)
    (hcb : st.rt.hasCallback = true) :
    (processEvent st ev t).2.1 = .toCallback ⟨ev, 0⟩ := by
  simp [processEvent, hf, hs, hcb]

/-- C3: in the input real-time callback, for every event: if the
application-side first-message flag is set it is cleared and the
message's timestamp is left at its zero default; otherwise the timestamp
is set to the unsigned 64-bit clock delta `(t_now - last)` scaled by
1e-6 (which equals the plain difference whenever the clock is monotone
and in range); `last` is updated to `t_now` unconditionally, even for the
first message. Consequently every delivered message has timestamp ≥ 0 and
the first delivered message has timestamp 0. -/
theorem input_delta_time :
    (∀ (st : InCbState) (ev : List Nat) (t : Nat), st.rt.firstMessage = true →
       (processEvent st ev t).1.rt.firstMessage = false ∧
       (processEvent st ev t).2.1.msg.timestamp = 0) ∧
    (∀ (st : InCbState) (ev : List Nat) (t : Nat), st.rt.firstMessage = false →
       (processEvent st ev t).2.1.msg.timestamp
         = (usub64 t st.lastTime : Rat) / 1000000) ∧
    (∀ a b : Nat, b ≤ a → a < 18446744073709551616 → usub64 a b = a - b) ∧
    (∀ (st : InCbState) (ev : List Nat) (t : Nat),
       (processEvent st ev t).1.lastTime = t) ∧
    (∀ (st : InCbState) (evs : List (List Nat × Nat)),
       ∀ m ∈ deliveredOf (jackProcessInAux st evs).2.1, 0 ≤ m.timestamp) ∧
    (∀ (st : InCbState) (evs : List (List Nat × Nat)),
       st.rt.firstMessage = true → st.rt.continueSysex = false →
       st.rt.hasCallback = true →
       ∀ m, (deliveredOf (jackProcessInAux st evs).2.1).head? = some m →
         m.timestamp = 0) := by
  refine ⟨?_, ?_, usub64_eq, processEvent_lastTime,
    fun st evs => jackProcessInAux_delivered_nonneg evs st, ?_⟩
  · intro st ev t hf
    constructor
    · exact processEvent_clears_first st ev t hf
    · rw [processEvent_msg]
      simp [mkInMsg, hf]
  · intro st ev t hf
    rw [processEvent_msg]
    simp [mkInMsg, hf]
  · intro st evs hf hs hcb m hm
    cases evs with
    | nil => simp [jackProcessInAux, deliveredOf] at hm
    | cons ev rest =>
      simp only [jackProcessInAux] at hm
      rw [processEvent_first_cb st ev.1 ev.2 hf hs hcb, deliveredOf_cons] at hm
      simp only [List.head?_cons, Option.some.injEq] at hm
      rw [← hm]

/-- A fresh input-callback state with a user callback installed, used by
concrete instantiations. -/
def freshInCb : InCbState :=
  { rt := { firstMessage := true, continueSysex := false, hasCallback := true,
            queue := [], queueLimit := 10 }, lastTime := 0 }

/-- Witness for C3 at a concrete fresh input-callback state receiving two
events 100000 microseconds apart. -/
theorem input_delta_time_witness :
    freshInCb.rt.firstMessage = true ∧
    (processEvent freshInCb [144, 60, 127] 500).2.1.msg.timestamp = 0 ∧
    (∀ m, (deliveredOf (jackProcessInAux freshInCb
        [([144, 60, 127], 500), ([128, 60, 0], 100500)]).2.1).head? = some m →
      m.timestamp = 0) :=
  ⟨rfl,
   (input_delta_time.1 freshInCb [144, 60, 127] 500 rfl).2,
   input_delta_time.2.2.2.2.2 freshInCb
      [([144, 60, 127], 500), ([128, 60, 0], 100500)] rfl rfl rfl⟩

/-- C9: in the input real-time callback, for every received event: if the
continue-sysex flag is set the message is discarded (queue untouched, no
notice); otherwise it goes to the user callback when one is installed;
otherwise it is pushed to the application queue when below the limit; and
when the queue rejects the push a stderr notice is emitted and the
message is dropped with the queue unchanged. The callback always returns
0 — no error propagates from the real-time path. -/
theorem input_dispatch :
    (∀ (st : InCbState) (ev : List Nat) (t : Nat), st.rt.continueSysex = true →
       (processEvent st ev t).2.1 = .discarded (mkInMsg st ev t) ∧
       (processEvent st ev t).1.rt.queue = st.rt.queue ∧
       (processEvent st ev t).2.2 = []) ∧
    (∀ (st : InCbState) (ev : List Nat) (t : Nat), st.rt.continueSysex = false →
       st.rt.hasCallback = true →
       (processEvent st ev t).2.1 = .toCallback (mkInMsg st ev t) ∧
       (processEvent st ev t).1.rt.queue = st.rt.queue ∧
       (processEvent st ev t).2.2 = []) ∧
    (∀ (st : InCbState) (ev : List Nat) (t : Nat), st.rt.continueSysex = false →
       st.rt.hasCallback = false → st.rt.queue.length < st.rt.queueLimit →
       (processEvent st ev t).2.1 = .queued (mkInMsg st ev t) ∧
       (processEvent st ev t).1.rt.queue = st.rt.queue ++ [mkInMsg st ev t] ∧
       (processEvent st ev t).2.2 = []) ∧
    (∀ (st : InCbState) (ev : List Nat) (t : Nat), st.rt.continueSysex = false →
       st.rt.hasCallback = false → ¬ st.rt.queue.length < st.rt.queueLimit →
       (processEvent st ev t).2.1 = .droppedQueueFull (mkInMsg st ev t) ∧
       (processEvent st ev t).1.rt.queue = st.rt.queue ∧
       (processEvent st ev t).2.2 = [queueFullNotice]) ∧
    (∀ (st : InCbState) (evs : List (List Nat × Nat)),
       (jackProcessIn st evs).2 = 0) := by
  refine ⟨?_, ?_, ?_, ?_, fun st evs => rfl⟩
  · intro st ev t h1
    cases hf : st.rt.firstMessage <;> simp [processEvent, mkInMsg, hf, h1]
  · intro st ev t h1 h2
    cases hf : st.rt.firstMessage <;> simp [processEvent, mkInMsg, hf, h1, h2]
  · intro st ev t h1 h2 h3
    cases hf : st.rt.firstMessage <;> simp [processEvent, mkInMsg, hf, h1, h2, h3]
  · intro st ev t h1 h2 h3
    cases hf : st.rt.firstMessage <;> simp [processEvent, mkInMsg, hf, h1, h2, h3]

/-- An input-callback state mid-sysex (continue-sysex flag set). -/
def sysexInCb : InCbState :=
  { rt := { firstMessage := false, continueSysex := true, hasCallback := false,
            queue := [], queueLimit := 1 }, lastTime := 0 }

/-- An input-callback state whose application queue is full. -/
def fullQueueInCb : InCbState :=
  { rt := { firstMessage := false, continueSysex := false, hasCallback := false,
            queue := [⟨[144], 0⟩], queueLimit := 1 }, lastTime := 0 }

/-- Witness for C9 at concrete states exercising the sysex-discard and
queue-overflow paths. -/
theorem input_dispatch_witness :
    sysexInCb.rt.continueSysex = true ∧
    (processEvent sysexInCb [240] 7).2.1 = .discarded (mkInMsg sysexInCb [240] 7) ∧
    (processEvent fullQueueInCb [128] 7).2.2 = [queueFullNotice] :=
  ⟨rfl,
   (input_dispatch.1 sysexInCb [240] 7 rfl).1,
   (input_dispatch.2.2.2.1 fullQueueInCb [128] 7 rfl rfl (by decide)).2.2⟩

end RtMidiJack
